import Mathlib

/-!
Verification of the MoveSwap atomic-swap repository.

This file shallowly embeds the two on-chain HTLC lock contracts
(contracts/ethereum/HTLC.sol and contracts/sui/sources/htlc.move) and the
client-side demo swap flow (examples/eth_sui_swap.ts), and proves or refutes
the specification claims about them.

Modelling conventions:
- EVM bytes32 values and addresses are Nat (0 is the zero address).
- Sui vector u8 values are List Nat; Sui addresses are Nat.
- Chain time is Nat seconds (the Sui clock is passed in milliseconds and the
  contract divides by 1000, as in the source).
- The SHA-256 primitive is an uninterpreted function parameter: the contracts
  only compare its output against the stored hashlock, so every theorem is
  proved for an arbitrary hash function.
- Fallible entry points return Except (the Solidity revert string, or the Move
  abort code); applying an operation in a trace keeps the old state on error,
  which models a reverted transaction.
-/

namespace MoveSwap

/-- Lock record of the EVM HTLC contract (HTLC.sol, struct Lock). -/
structure EvmLock where
  htlc_id : Nat
  hashlock : Nat
  timelock : Nat
  sender : Nat
  receiver : Nat
  amount : Nat
  secret : Nat
  withdrawn : Bool
  refunded : Bool
  created_at : Nat
  token : Nat
deriving Repr, DecidableEq

/-- Default value of a Solidity mapping slot: the all-zero Lock. -/
def EvmLock.empty : EvmLock :=
  { htlc_id := 0, hashlock := 0, timelock := 0, sender := 0, receiver := 0,
    amount := 0, secret := 0, withdrawn := false, refunded := false,
    created_at := 0, token := 0 }

/-- Contract storage: the mapping from htlc_id to Lock (HTLC.sol, locks). -/
structure EvmState where
  locks : Nat → EvmLock

/-- The state of a freshly deployed contract: every slot holds the zero Lock. -/
def EvmState.init : EvmState := ⟨fun _ => EvmLock.empty⟩

/-- Write one mapping slot. -/
def EvmState.setLock (s : EvmState) (id : Nat) (l : EvmLock) : EvmState :=
  ⟨fun j => if j = id then l else s.locks j⟩

/-- HTLC.sol createHTLC. Besides the Solidity arguments it takes the
transaction environment: block.timestamp (now), msg.sender, msg.value, and
the ERC20 allowance the caller has granted the contract (read on chain via
IERC20.allowance; the token branch escrows exactly that allowance). -/
def createHTLC (s : EvmState) (now msgSender msgValue : Nat)
    (htlc_id receiver hashlock timelock token allowance : Nat) :
    Except String EvmState :=
  if ¬ timelock > now then .error "Timelock must be in the future"
  else if receiver = 0 then .error "Invalid receiver address"
  else if ¬ (s.locks htlc_id).sender = 0 then .error "HTLC already exists"
  else
    if token = 0 then
      let amount := msgValue
      if ¬ amount > 0 then .error "Amount must be greater than 0"
      else .ok (s.setLock htlc_id
        { htlc_id := htlc_id, hashlock := hashlock, timelock := timelock,
          sender := msgSender, receiver := receiver, amount := amount,
          secret := 0, withdrawn := false, refunded := false,
          created_at := now, token := token })
    else
      let amount := allowance
      if ¬ amount > 0 then .error "Token allowance must be greater than 0"
      else .ok (s.setLock htlc_id
        { htlc_id := htlc_id, hashlock := hashlock, timelock := timelock,
          sender := msgSender, receiver := receiver, amount := amount,
          secret := 0, withdrawn := false, refunded := false,
          created_at := now, token := token })

/-- HTLC.sol claimHTLC. The parameter sha256Fn is the sha256 primitive the
contract applies to the submitted secret. -/
def claimHTLC (sha256Fn : Nat → Nat) (s : EvmState) (now msgSender : Nat)
    (htlc_id secret : Nat) : Except String EvmState :=
  let lock := s.locks htlc_id
  if ¬ msgSender = lock.receiver then .error "Not the receiver"
  else if lock.withdrawn then .error "Already withdrawn"
  else if lock.refunded then .error "Already refunded"
  else if ¬ now < lock.timelock then .error "Timelock expired"
  else if ¬ sha256Fn secret = lock.hashlock then .error "Invalid secret"
  else .ok (s.setLock htlc_id { lock with secret := secret, withdrawn := true })

/-- HTLC.sol refundHTLC. -/
def refundHTLC (s : EvmState) (now msgSender : Nat) (htlc_id : Nat) :
    Except String EvmState :=
  let lock := s.locks htlc_id
  if ¬ msgSender = lock.sender then .error "Not the sender"
  else if lock.withdrawn then .error "Already withdrawn"
  else if lock.refunded then .error "Already refunded"
  else if now < lock.timelock then .error "Timelock not expired"
  else .ok (s.setLock htlc_id { lock with refunded := true })

/-- One transaction against the EVM contract, with its environment. -/
inductive EvmOp where
  | create (now msgSender msgValue htlc_id receiver hashlock timelock token allowance : Nat)
  | claim (now msgSender htlc_id secret : Nat)
  | refund (now msgSender htlc_id : Nat)
deriving Repr, DecidableEq

/-- Result of submitting one transaction. -/
def EvmOp.apply (sha256Fn : Nat → Nat) (s : EvmState) : EvmOp → Except String EvmState
  | .create now msgSender msgValue htlc_id receiver hashlock timelock token allowance =>
      createHTLC s now msgSender msgValue htlc_id receiver hashlock timelock token allowance
  | .claim now msgSender htlc_id secret => claimHTLC sha256Fn s now msgSender htlc_id secret
  | .refund now msgSender htlc_id => refundHTLC s now msgSender htlc_id

/-- A reverted transaction leaves the contract storage unchanged. -/
def evmStep (sha256Fn : Nat → Nat) (s : EvmState) (op : EvmOp) : EvmState :=
  match op.apply sha256Fn s with
  | .ok s' => s'
  | .error _ => s

/-- Run a sequence of transactions. -/
def evmRun (sha256Fn : Nat → Nat) (s : EvmState) (ops : List EvmOp) : EvmState :=
  ops.foldl (evmStep sha256Fn) s

/-! Sui HTLC module (contracts/sui/sources/htlc.move). Abort codes as in the
source constants. The object is shared on creation; claim and refund mutate
the shared object. The Option Coin SUI payload is modelled by its value:
some v while the coin is held, none once extracted. -/

/-- Abort code E_INVALID_SECRET. -/
def E_INVALID_SECRET : Nat := 2
/-- Abort code E_ALREADY_WITHDRAWN. -/
def E_ALREADY_WITHDRAWN : Nat := 3
/-- Abort code E_ALREADY_REFUNDED. -/
def E_ALREADY_REFUNDED : Nat := 4
/-- Abort code E_TIMELOCK_NOT_EXPIRED. -/
def E_TIMELOCK_NOT_EXPIRED : Nat := 5
/-- Abort code E_TIMELOCK_EXPIRED. -/
def E_TIMELOCK_EXPIRED : Nat := 6
/-- Abort code E_UNAUTHORIZED. -/
def E_UNAUTHORIZED : Nat := 7

/-- The HTLC Sui object (htlc.move, struct HTLC). -/
structure SuiHTLC where
  htlc_id : List Nat
  hashlock : List Nat
  timelock : Nat
  sender : Nat
  receiver : Nat
  amount : Nat
  secret : List Nat
  withdrawn : Bool
  refunded : Bool
  created_at : Nat
  coin : Option Nat
deriving Repr, DecidableEq

/-- htlc.move create_htlc. The body performs no input validation (the comment
in the source says the validation logic remains the same, but none is present):
it unconditionally builds the object, emits the event and shares it. clockMs
is clock::timestamp_ms, ctxSender is tx_context::sender, paymentValue is
coin::value of the payment. -/
def create_htlc (clockMs : Nat) (htlc_id : List Nat) (receiver : Nat)
    (hashlock : List Nat) (timelock : Nat) (paymentValue : Nat)
    (ctxSender : Nat) : SuiHTLC :=
  { htlc_id := htlc_id, hashlock := hashlock, timelock := timelock,
    sender := ctxSender, receiver := receiver, amount := paymentValue,
    secret := [], withdrawn := false, refunded := false,
    created_at := clockMs / 1000, coin := some paymentValue }

/-- htlc.move claim_with_secret. On success the coin is extracted and
transferred to the receiver. The parameter sha2_256 is the std hash primitive
applied to the submitted secret. -/
def claim_with_secret (sha2_256 : List Nat → List Nat) (clockMs : Nat)
    (htlc : SuiHTLC) (secret : List Nat) (ctxSender : Nat) :
    Except Nat SuiHTLC :=
  let receiver := ctxSender
  if ¬ htlc.receiver = receiver then .error E_UNAUTHORIZED
  else if htlc.withdrawn then .error E_ALREADY_WITHDRAWN
  else if htlc.refunded then .error E_ALREADY_REFUNDED
  else
    let current_time := clockMs / 1000
    if ¬ current_time < htlc.timelock then .error E_TIMELOCK_EXPIRED
    else if ¬ sha2_256 secret = htlc.hashlock then .error E_INVALID_SECRET
    else .ok { htlc with secret := secret, withdrawn := true, coin := none }

/-- htlc.move refund_htlc. On success the coin is extracted and returned to
the sender. -/
def refund_htlc (clockMs : Nat) (htlc : SuiHTLC) (ctxSender : Nat) :
    Except Nat SuiHTLC :=
  let sender := ctxSender
  if ¬ htlc.sender = sender then .error E_UNAUTHORIZED
  else if htlc.withdrawn then .error E_ALREADY_WITHDRAWN
  else if htlc.refunded then .error E_ALREADY_REFUNDED
  else
    let current_time := clockMs / 1000
    if current_time < htlc.timelock then .error E_TIMELOCK_NOT_EXPIRED
    else .ok { htlc with refunded := true, coin := none }

/-- One transaction against a shared HTLC object. -/
inductive SuiOp where
  | claim (clockMs : Nat) (secret : List Nat) (ctxSender : Nat)
  | refund (clockMs : Nat) (ctxSender : Nat)
deriving Repr, DecidableEq

/-- Result of one transaction on the object. -/
def SuiOp.apply (sha2_256 : List Nat → List Nat) (htlc : SuiHTLC) :
    SuiOp → Except Nat SuiHTLC
  | .claim clockMs secret ctxSender => claim_with_secret sha2_256 clockMs htlc secret ctxSender
  | .refund clockMs ctxSender => refund_htlc clockMs htlc ctxSender

/-- An aborted Sui transaction leaves the object unchanged. -/
def suiStep (sha2_256 : List Nat → List Nat) (htlc : SuiHTLC) (op : SuiOp) : SuiHTLC :=
  match op.apply sha2_256 htlc with
  | .ok h' => h'
  | .error _ => htlc

/-- Run a sequence of transactions on the object. -/
def suiRun (sha2_256 : List Nat → List Nat) (htlc : SuiHTLC) (ops : List SuiOp) : SuiHTLC :=
  ops.foldl (suiStep sha2_256) htlc

/-! Client-side demo flow (examples/eth_sui_swap.ts). -/

/-- Timelock durations from the config object of eth_sui_swap.ts:
ethTimelockDuration 7200 seconds, suiTimelockDuration 3600 seconds. -/
structure SwapConfig where
  ethTimelockDuration : Nat
  suiTimelockDuration : Nat
deriving Repr, DecidableEq

/-- The literal demo configuration (eth_sui_swap.ts lines 26 and 27). -/
def demoConfig : SwapConfig :=
  { ethTimelockDuration := 7200, suiTimelockDuration := 3600 }

/-- The swap details returned by generateSwapDetails. -/
structure SwapDetails where
  secret : Nat
  hashlock : Nat
  htlcId : Nat
  ethTimelock : Nat
  suiTimelock : Nat
deriving Repr, DecidableEq

/-- eth_sui_swap.ts generateSwapDetails. The secret is 32 random bytes and
the htlcId 16 random bytes, both abstracted as parameters; the hashlock is
the sha256 of the secret (crypto.createHash applied at line 87). The two
wall-clock reads of Date.now are abstracted as t1 (for the ETH timelock,
line 89) and t2 (for the SUI timelock, line 90). No validation of any kind
is performed. -/
def generateSwapDetails (sha256Fn : Nat → Nat) (secret htlcId t1 t2 : Nat) :
    SwapDetails :=
  { secret := secret, hashlock := sha256Fn secret, htlcId := htlcId,
    ethTimelock := t1 + demoConfig.ethTimelockDuration,
    suiTimelock := t2 + demoConfig.suiTimelockDuration }

/-- The chain-facing steps the demo issues, in order. -/
inductive SwapAction where
  | createEthereumHTLC (timelock : Nat)
  | createSuiHTLC (timelock : Nat)
  | waitForSuiFinality
  | claimSuiHTLC
  | claimEthereumHTLC
deriving Repr, DecidableEq

/-- Whether a step submits or awaits a chain transaction. Every step of the
demo flow interacts with one of the two chains. -/
def SwapAction.isChainInteraction : SwapAction → Bool
  | _ => true

/-- Recognizer for the Ethereum lock-creation step. -/
def isCreateEthAction : SwapAction → Bool
  | .createEthereumHTLC _ => true
  | _ => false

/-- Recognizer for the Sui lock-creation step. -/
def isCreateSuiAction : SwapAction → Bool
  | .createSuiHTLC _ => true
  | _ => false

/-- eth_sui_swap.ts performETHtoSUISwap, as the ordered list of chain
interactions it performs on the given swap details: Step 1 creates the
Ethereum HTLC (line 409), Step 2 creates the Sui HTLC (line 419), then the
flow waits for the Sui transaction to finalize (line 429), Step 3 claims the
Sui HTLC revealing the secret (line 436), Step 4 claims the Ethereum HTLC
(line 440). The function never inspects or validates the timelocks. -/
def performETHtoSUISwap (d : SwapDetails) : List SwapAction :=
  [ SwapAction.createEthereumHTLC d.ethTimelock,
    SwapAction.createSuiHTLC d.suiTimelock,
    SwapAction.waitForSuiFinality,
    SwapAction.claimSuiHTLC,
    SwapAction.claimEthereumHTLC ]

/-! Hash primitive selected by each secret-commitment path in the repository.
Each definition is read off one source line. -/

/-- Symbolic hash primitives appearing in the repository. -/
inductive HashAlgo where
  | sha256
  | keccak256
deriving Repr, DecidableEq

/-- eth_sui_swap.ts line 87: crypto.createHash with sha256 over the raw
secret bytes. -/
def generateSwapDetailsHashAlgo : HashAlgo := HashAlgo.sha256

/-- The Fusion demo variant generateCrossChainSwapDetails:
crypto.createHash with sha256 over the raw secret bytes. -/
def generateCrossChainSwapDetailsHashAlgo : HashAlgo := HashAlgo.sha256

/-- The Sui HTLC helper script (unnamed part_007 line 217):
crypto.createHash with sha256 over the raw secret bytes. -/
def suiHtlcScriptHashAlgo : HashAlgo := HashAlgo.sha256

/-- The 1inch-integration script createHTLCWithOneInch (unnamed part_007
line 388): ethers.utils.keccak256 over the secret, not sha256. -/
def createHTLCWithOneInchHashAlgo : HashAlgo := HashAlgo.keccak256

/-- The limit-order demo script (unnamed part_009 line 189):
crypto.createHash with sha256 over the raw secret bytes. -/
def limitOrderScriptHashAlgo : HashAlgo := HashAlgo.sha256

/-- HTLC.sol line 109: the claim check applies the sha256 precompile to the
submitted secret. -/
def claimHTLCVerifyHashAlgo : HashAlgo := HashAlgo.sha256

/-- htlc.move line 128: the claim check applies hash sha2_256 to the
submitted secret. -/
def claimWithSecretVerifyHashAlgo : HashAlgo := HashAlgo.sha256

/-- A swap-details value whose timelocks violate the ordering invariant:
the Sui timelock (5000) is not below the Ethereum timelock (1000). -/
def badDetails : SwapDetails :=
  { secret := 0, hashlock := 0, htlcId := 0, ethTimelock := 1000, suiTimelock := 5000 }

/-- A swap-details value produced by the generator itself, with both clock
reads at 100: ETH timelock 7300, SUI timelock 3700. -/
def demoDetails : SwapDetails := generateSwapDetails (fun n => n) 1 2 100 100

/-- Concrete contract state with one open lock in slot 1 (receiver 3,
sender 2, hashlock 6, timelock 100), used to instantiate theorems. -/
def w3Evm : EvmState :=
  EvmState.init.setLock 1
    { htlc_id := 1, hashlock := 6, timelock := 100, sender := 2, receiver := 3,
      amount := 10, secret := 0, withdrawn := false, refunded := false,
      created_at := 0, token := 0 }

/-- A second copy of the one-open-lock state, used for the at-most-once
instantiation. -/
def w5Evm : EvmState :=
  EvmState.init.setLock 1
    { htlc_id := 1, hashlock := 6, timelock := 100, sender := 2, receiver := 3,
      amount := 10, secret := 0, withdrawn := false, refunded := false,
      created_at := 0, token := 0 }

/-- The state after the receiver claims the lock of w5Evm with secret 5
under the hash function n + 1. -/
def w5Claimed : EvmState :=
  w5Evm.setLock 1
    { htlc_id := 1, hashlock := 6, timelock := 100, sender := 2, receiver := 3,
      amount := 10, secret := 5, withdrawn := true, refunded := false,
      created_at := 0, token := 0 }

/-- A concrete already-withdrawn Sui HTLC object. -/
def w4Sui : SuiHTLC :=
  { htlc_id := [0], hashlock := [1], timelock := 50, sender := 2, receiver := 3,
    amount := 4, secret := [9], withdrawn := true, refunded := false,
    created_at := 0, coin := none }

/-- Concrete contract state with one open lock in slot 1, used for the
refund-gating instantiation. -/
def w8Evm : EvmState :=
  EvmState.init.setLock 1
    { htlc_id := 1, hashlock := 6, timelock := 100, sender := 2, receiver := 3,
      amount := 10, secret := 0, withdrawn := false, refunded := false,
      created_at := 0, token := 0 }

/-! Characterization lemmas for the contract entry points. -/

/-- Reading a slot after setLock. -/
theorem EvmState.locks_setLock (s : EvmState) (id : Nat) (l : EvmLock) (j : Nat) :
    (s.setLock id l).locks j = if j = id then l else s.locks j := rfl

/-- createHTLC either reverts, or the slot was vacant and it writes the fresh
lock whose amount is msg.value for the ETH branch and the full allowance for
the token branch. -/
theorem createHTLC_cases (s : EvmState) (now ms mv id r hl t tk al : Nat) :
    (∃ e, createHTLC s now ms mv id r hl t tk al = Except.error e) ∨
    ((s.locks id).sender = 0 ∧
      createHTLC s now ms mv id r hl t tk al = Except.ok (s.setLock id
        { htlc_id := id, hashlock := hl, timelock := t, sender := ms,
          receiver := r, amount := if tk = 0 then mv else al, secret := 0,
          withdrawn := false, refunded := false, created_at := now, token := tk })) := by
  unfold createHTLC
  dsimp only
  split
  · exact Or.inl ⟨_, rfl⟩
  split
  · exact Or.inl ⟨_, rfl⟩
  split
  · exact Or.inl ⟨_, rfl⟩
  next hsz =>
    split
    next htk =>
      split
      · exact Or.inl ⟨_, rfl⟩
      · exact Or.inr ⟨not_not.mp hsz, by simp [htk]⟩
    next htk =>
      split
      · exact Or.inl ⟨_, rfl⟩
      · exact Or.inr ⟨not_not.mp hsz, by simp [htk]⟩

/-- claimHTLC either reverts, or all five guards held and it records the
secret and marks the lock withdrawn. -/
theorem claimHTLC_cases (f : Nat → Nat) (s : EvmState) (now c id sec : Nat) :
    (∃ e, claimHTLC f s now c id sec = Except.error e) ∨
    (c = (s.locks id).receiver ∧ (s.locks id).withdrawn = false ∧
      (s.locks id).refunded = false ∧ now < (s.locks id).timelock ∧
      f sec = (s.locks id).hashlock ∧
      claimHTLC f s now c id sec = Except.ok (s.setLock id
        { s.locks id with secret := sec, withdrawn := true })) := by
  unfold claimHTLC
  dsimp only
  split
  · exact Or.inl ⟨_, rfl⟩
  next hc =>
    split
    · exact Or.inl ⟨_, rfl⟩
    next hw =>
      split
      · exact Or.inl ⟨_, rfl⟩
      next hr =>
        split
        · exact Or.inl ⟨_, rfl⟩
        next ht =>
          split
          · exact Or.inl ⟨_, rfl⟩
          next hh =>
            exact Or.inr ⟨not_not.mp hc, Bool.not_eq_true _ ▸ (by simpa using hw),
              by simpa using hr, not_not.mp ht, not_not.mp hh, rfl⟩

/-- refundHTLC either reverts, or all four guards held and it marks the lock
refunded. -/
theorem refundHTLC_cases (s : EvmState) (now c id : Nat) :
    (∃ e, refundHTLC s now c id = Except.error e) ∨
    (c = (s.locks id).sender ∧ (s.locks id).withdrawn = false ∧
      (s.locks id).refunded = false ∧ (s.locks id).timelock ≤ now ∧
      refundHTLC s now c id = Except.ok (s.setLock id
        { s.locks id with refunded := true })) := by
  unfold refundHTLC
  dsimp only
  split
  · exact Or.inl ⟨_, rfl⟩
  next hc =>
    split
    · exact Or.inl ⟨_, rfl⟩
    next hw =>
      split
      · exact Or.inl ⟨_, rfl⟩
      next hr =>
        split
        · exact Or.inl ⟨_, rfl⟩
        next ht =>
          exact Or.inr ⟨not_not.mp hc, by simpa using hw, by simpa using hr,
            Nat.le_of_not_lt ht, rfl⟩

/-- A reverted transaction is a no-op on storage. -/
theorem evmStep_of_error {f : Nat → Nat} {s : EvmState} (op : EvmOp) {e : String}
    (h : op.apply f s = Except.error e) : evmStep f s op = s := by
  simp [evmStep, h]

/-- A successful transaction yields the returned storage. -/
theorem evmStep_of_ok {f : Nat → Nat} {s : EvmState} (op : EvmOp) {s' : EvmState}
    (h : op.apply f s = Except.ok s') : evmStep f s op = s' := by
  simp [evmStep, h]

/-- An aborted Sui transaction is a no-op on the object. -/
theorem suiStep_of_error {g : List Nat → List Nat} {o : SuiHTLC} (op : SuiOp) {e : Nat}
    (h : op.apply g o = Except.error e) : suiStep g o op = o := by
  simp [suiStep, h]

/-- A successful Sui transaction yields the returned object. -/
theorem suiStep_of_ok {g : List Nat → List Nat} {o : SuiHTLC} (op : SuiOp) {o' : SuiHTLC}
    (h : op.apply g o = Except.ok o') : suiStep g o op = o' := by
  simp [suiStep, h]

/-- claim_with_secret either aborts, or all guards held and it records the
secret, marks the object withdrawn and extracts the coin. -/
theorem claim_with_secret_cases (g : List Nat → List Nat) (clockMs : Nat)
    (o : SuiHTLC) (sec : List Nat) (c : Nat) :
    (∃ e, claim_with_secret g clockMs o sec c = Except.error e) ∨
    (o.receiver = c ∧ o.withdrawn = false ∧ o.refunded = false ∧
      clockMs / 1000 < o.timelock ∧ g sec = o.hashlock ∧
      claim_with_secret g clockMs o sec c = Except.ok
        { o with secret := sec, withdrawn := true, coin := none }) := by
  unfold claim_with_secret
  dsimp only
  split
  · exact Or.inl ⟨_, rfl⟩
  next hc =>
    split
    · exact Or.inl ⟨_, rfl⟩
    next hw =>
      split
      · exact Or.inl ⟨_, rfl⟩
      next hr =>
        split
        · exact Or.inl ⟨_, rfl⟩
        next ht =>
          split
          · exact Or.inl ⟨_, rfl⟩
          next hh =>
            exact Or.inr ⟨not_not.mp hc, by simpa using hw, by simpa using hr,
              not_not.mp ht, not_not.mp hh, rfl⟩

/-- refund_htlc either aborts, or all guards held and it marks the object
refunded and extracts the coin. -/
theorem refund_htlc_cases (clockMs : Nat) (o : SuiHTLC) (c : Nat) :
    (∃ e, refund_htlc clockMs o c = Except.error e) ∨
    (o.sender = c ∧ o.withdrawn = false ∧ o.refunded = false ∧
      o.timelock ≤ clockMs / 1000 ∧
      refund_htlc clockMs o c = Except.ok { o with refunded := true, coin := none }) := by
  unfold refund_htlc
  dsimp only
  split
  · exact Or.inl ⟨_, rfl⟩
  next hc =>
    split
    · exact Or.inl ⟨_, rfl⟩
    next hw =>
      split
      · exact Or.inl ⟨_, rfl⟩
      next hr =>
        split
        · exact Or.inl ⟨_, rfl⟩
        next ht =>
          exact Or.inr ⟨not_not.mp hc, by simpa using hw, by simpa using hr,
            Nat.le_of_not_lt ht, rfl⟩

/-! Trace-level preservation machinery. -/

/-- Any step-preserved state predicate is preserved by whole runs. -/
theorem evmRun_pres (f : Nat → Nat) (P : EvmState → Prop)
    (hstep : ∀ s op, P s → P (evmStep f s op)) :
    ∀ (ops : List EvmOp) (s : EvmState), P s → P (evmRun f s ops) := by
  intro ops
  induction ops with
  | nil => intro s hs; simpa [evmRun] using hs
  | cons op rest ih =>
      intro s hs
      have : evmRun f s (op :: rest) = evmRun f (evmStep f s op) rest := by
        simp [evmRun, List.foldl]
      rw [this]
      exact ih _ (hstep s op hs)

/-- Any step-preserved object predicate is preserved by whole Sui runs. -/
theorem suiRun_pres (g : List Nat → List Nat) (P : SuiHTLC → Prop)
    (hstep : ∀ o op, P o → P (suiStep g o op)) :
    ∀ (ops : List SuiOp) (o : SuiHTLC), P o → P (suiRun g o ops) := by
  intro ops
  induction ops with
  | nil => intro o ho; simpa [suiRun] using ho
  | cons op rest ih =>
      intro o ho
      have : suiRun g o (op :: rest) = suiRun g (suiStep g o op) rest := by
        simp [suiRun, List.foldl]
      rw [this]
      exact ih _ (hstep o op ho)

/-- On a slot whose lock has a nonzero sender (every lock actually created
on Ethereum has msg.sender as its sender, which is never the zero address),
one step preserves the nonzero sender and a set withdrawn flag. -/
theorem evmStep_withdrawn_pres (f : Nat → Nat) (s : EvmState) (op : EvmOp) (id : Nat)
    (hsender : (s.locks id).sender ≠ 0) (hw : (s.locks id).withdrawn = true) :
    ((evmStep f s op).locks id).sender ≠ 0 ∧
    ((evmStep f s op).locks id).withdrawn = true := by
  cases op with
  | create now ms mv hid r hl t tk al =>
      rcases createHTLC_cases s now ms mv hid r hl t tk al with ⟨e, he⟩ | ⟨hz, hok⟩
      · rw [evmStep_of_error (.create now ms mv hid r hl t tk al) he]
        exact ⟨hsender, hw⟩
      · rw [evmStep_of_ok (.create now ms mv hid r hl t tk al) hok]
        by_cases hid_eq : id = hid
        · exact absurd (hid_eq ▸ hz) hsender
        · simpa [EvmState.locks_setLock, hid_eq] using ⟨hsender, hw⟩
  | claim now ms hid sec =>
      rcases claimHTLC_cases f s now ms hid sec with ⟨e, he⟩ | ⟨_, _, _, _, _, hok⟩
      · rw [evmStep_of_error (.claim now ms hid sec) he]
        exact ⟨hsender, hw⟩
      · rw [evmStep_of_ok (.claim now ms hid sec) hok]
        by_cases hid_eq : id = hid
        · subst hid_eq
          simpa [EvmState.locks_setLock] using hsender
        · simpa [EvmState.locks_setLock, hid_eq] using ⟨hsender, hw⟩
  | refund now ms hid =>
      rcases refundHTLC_cases s now ms hid with ⟨e, he⟩ | ⟨_, hwf, _, _, hok⟩
      · rw [evmStep_of_error (.refund now ms hid) he]
        exact ⟨hsender, hw⟩
      · rw [evmStep_of_ok (.refund now ms hid) hok]
        by_cases hid_eq : id = hid
        · subst hid_eq
          rw [hwf] at hw
          exact absurd hw (by simp)
        · simpa [EvmState.locks_setLock, hid_eq] using ⟨hsender, hw⟩

/-- Symmetrically, one step preserves the nonzero sender and a set refunded
flag. -/
theorem evmStep_refunded_pres (f : Nat → Nat) (s : EvmState) (op : EvmOp) (id : Nat)
    (hsender : (s.locks id).sender ≠ 0) (hr : (s.locks id).refunded = true) :
    ((evmStep f s op).locks id).sender ≠ 0 ∧
    ((evmStep f s op).locks id).refunded = true := by
  cases op with
  | create now ms mv hid r hl t tk al =>
      rcases createHTLC_cases s now ms mv hid r hl t tk al with ⟨e, he⟩ | ⟨hz, hok⟩
      · rw [evmStep_of_error (.create now ms mv hid r hl t tk al) he]
        exact ⟨hsender, hr⟩
      · rw [evmStep_of_ok (.create now ms mv hid r hl t tk al) hok]
        by_cases hid_eq : id = hid
        · exact absurd (hid_eq ▸ hz) hsender
        · simpa [EvmState.locks_setLock, hid_eq] using ⟨hsender, hr⟩
  | claim now ms hid sec =>
      rcases claimHTLC_cases f s now ms hid sec with ⟨e, he⟩ | ⟨_, _, hrf, _, _, hok⟩
      · rw [evmStep_of_error (.claim now ms hid sec) he]
        exact ⟨hsender, hr⟩
      · rw [evmStep_of_ok (.claim now ms hid sec) hok]
        by_cases hid_eq : id = hid
        · subst hid_eq
          rw [hrf] at hr
          exact absurd hr (by simp)
        · simpa [EvmState.locks_setLock, hid_eq] using ⟨hsender, hr⟩
  | refund now ms hid =>
      rcases refundHTLC_cases s now ms hid with ⟨e, he⟩ | ⟨_, _, _, _, hok⟩
      · rw [evmStep_of_error (.refund now ms hid) he]
        exact ⟨hsender, hr⟩
      · rw [evmStep_of_ok (.refund now ms hid) hok]
        by_cases hid_eq : id = hid
        · subst hid_eq
          simpa [EvmState.locks_setLock] using hsender
        · simpa [EvmState.locks_setLock, hid_eq] using ⟨hsender, hr⟩

/-- The per-slot mutual-exclusivity invariant of the EVM contract. -/
def EvmExcl (s : EvmState) : Prop :=
  ∀ id : Nat, ¬ ((s.locks id).withdrawn = true ∧ (s.locks id).refunded = true)

/-- One step preserves mutual exclusivity. -/
theorem evmStep_excl_pres (f : Nat → Nat) (s : EvmState) (op : EvmOp)
    (hs : EvmExcl s) : EvmExcl (evmStep f s op) := by
  cases op with
  | create now ms mv hid r hl t tk al =>
      rcases createHTLC_cases s now ms mv hid r hl t tk al with ⟨e, he⟩ | ⟨_, hok⟩
      · rw [evmStep_of_error (.create now ms mv hid r hl t tk al) he]; exact hs
      · rw [evmStep_of_ok (.create now ms mv hid r hl t tk al) hok]
        intro id
        by_cases hid_eq : id = hid
        · subst hid_eq; simp [EvmState.locks_setLock]
        · simpa [EvmState.locks_setLock, hid_eq] using hs id
  | claim now ms hid sec =>
      rcases claimHTLC_cases f s now ms hid sec with ⟨e, he⟩ | ⟨_, _, hrf, _, _, hok⟩
      · rw [evmStep_of_error (.claim now ms hid sec) he]; exact hs
      · rw [evmStep_of_ok (.claim now ms hid sec) hok]
        intro id
        by_cases hid_eq : id = hid
        · subst hid_eq; simp [EvmState.locks_setLock, hrf]
        · simpa [EvmState.locks_setLock, hid_eq] using hs id
  | refund now ms hid =>
      rcases refundHTLC_cases s now ms hid with ⟨e, he⟩ | ⟨_, hwf, _, _, hok⟩
      · rw [evmStep_of_error (.refund now ms hid) he]; exact hs
      · rw [evmStep_of_ok (.refund now ms hid) hok]
        intro id
        by_cases hid_eq : id = hid
        · subst hid_eq; simp [EvmState.locks_setLock, hwf]
        · simpa [EvmState.locks_setLock, hid_eq] using hs id

/-- One Sui step preserves a set withdrawn flag. -/
theorem suiStep_withdrawn_pres (g : List Nat → List Nat) (o : SuiHTLC) (op : SuiOp)
    (hw : o.withdrawn = true) : (suiStep g o op).withdrawn = true := by
  cases op with
  | claim clockMs sec c =>
      rcases claim_with_secret_cases g clockMs o sec c with ⟨e, he⟩ | ⟨_, hwf, _, _, _, hok⟩
      · rw [suiStep_of_error (.claim clockMs sec c) he]; exact hw
      · rw [hwf] at hw; exact absurd hw (by simp)
  | refund clockMs c =>
      rcases refund_htlc_cases clockMs o c with ⟨e, he⟩ | ⟨_, hwf, _, _, hok⟩
      · rw [suiStep_of_error (.refund clockMs c) he]; exact hw
      · rw [hwf] at hw; exact absurd hw (by simp)

/-- One Sui step preserves a set refunded flag. -/
theorem suiStep_refunded_pres (g : List Nat → List Nat) (o : SuiHTLC) (op : SuiOp)
    (hr : o.refunded = true) : (suiStep g o op).refunded = true := by
  cases op with
  | claim clockMs sec c =>
      rcases claim_with_secret_cases g clockMs o sec c with ⟨e, he⟩ | ⟨_, _, hrf, _, _, hok⟩
      · rw [suiStep_of_error (.claim clockMs sec c) he]; exact hr
      · rw [hrf] at hr; exact absurd hr (by simp)
  | refund clockMs c =>
      rcases refund_htlc_cases clockMs o c with ⟨e, he⟩ | ⟨_, _, hrf, _, _⟩
      · rw [suiStep_of_error (.refund clockMs c) he]; exact hr
      · rw [hrf] at hr; exact absurd hr (by simp)

/-- One Sui step preserves mutual exclusivity of the two flags. -/
theorem suiStep_excl_pres (g : List Nat → List Nat) (o : SuiHTLC) (op : SuiOp)
    (hs : ¬ (o.withdrawn = true ∧ o.refunded = true)) :
    ¬ ((suiStep g o op).withdrawn = true ∧ (suiStep g o op).refunded = true) := by
  cases op with
  | claim clockMs sec c =>
      rcases claim_with_secret_cases g clockMs o sec c with ⟨e, he⟩ | ⟨_, _, hrf, _, _, hok⟩
      · rw [suiStep_of_error (.claim clockMs sec c) he]; exact hs
      · rw [suiStep_of_ok (.claim clockMs sec c) hok]; simp [hrf]
  | refund clockMs c =>
      rcases refund_htlc_cases clockMs o c with ⟨e, he⟩ | ⟨_, hwf, _, _, hok⟩
      · rw [suiStep_of_error (.refund clockMs c) he]; exact hs
      · rw [suiStep_of_ok (.refund clockMs c) hok]; simp [hwf]

/-! Claim theorems. -/

/-- C1 (amended): every SwapIntent produced by generateSwapDetails has
suiTimelock strictly below ethTimelock, provided the two Date.now reads lie
within the 3600-second duration gap; however no validation exists anywhere:
the demo swap flow on arbitrary details, including ones violating the
ordering, proceeds directly to chain interaction, its first step being the
Ethereum lock creation. -/
theorem c1_generator_orders_timelocks_but_nothing_validates :
    (∀ (f : Nat → Nat) (secret htlcId t1 t2 : Nat),
      t2 < t1 + 3600 →
      (generateSwapDetails f secret htlcId t1 t2).suiTimelock <
        (generateSwapDetails f secret htlcId t1 t2).ethTimelock) ∧
    (∀ d : SwapDetails,
      performETHtoSUISwap d ≠ [] ∧
      (performETHtoSUISwap d).head? =
        some (SwapAction.createEthereumHTLC d.ethTimelock)) := by
  constructor
  · intro f secret htlcId t1 t2 h
    simp only [generateSwapDetails, demoConfig]
    omega
  · intro d
    exact ⟨by simp [performETHtoSUISwap], rfl⟩

/-- Witness for C1: instantiation with both clock reads at 100. -/
theorem c1_generator_orders_timelocks_but_nothing_validates_witness :
    (100 : Nat) < 100 + 3600 ∧
    (generateSwapDetails (fun n => n) 1 2 100 100).suiTimelock <
      (generateSwapDetails (fun n => n) 1 2 100 100).ethTimelock :=
  ⟨by decide,
    c1_generator_orders_timelocks_but_nothing_validates.1
      (fun n => n) 1 2 100 100 (by decide)⟩

/-- Counterexample to C1 as stated: for details whose timelocks violate the
ordering (ETH 1000, SUI 5000), the flow does not fail before any chain
interaction — it emits the Ethereum lock creation as its first chain action. -/
theorem c1_violating_intent_reaches_chain :
    ¬ badDetails.suiTimelock < badDetails.ethTimelock ∧
    performETHtoSUISwap badDetails ≠ [] ∧
    (performETHtoSUISwap badDetails).head? =
      some (SwapAction.createEthereumHTLC 1000) ∧
    SwapAction.isChainInteraction (SwapAction.createEthereumHTLC 1000) = true := by
  exact ⟨by decide, by decide, rfl, rfl⟩

/-- C2 (amended): in every demo swap run the Ethereum lock (chain A, the
longer-timelock leg) is created first, at position 0, and the Sui lock
(chain B) second, at position 1; the flow then waits for Sui finality and
claims Sui before Ethereum. -/
theorem c2_eth_lock_created_before_sui_lock :
    ∀ d : SwapDetails,
      performETHtoSUISwap d =
        [SwapAction.createEthereumHTLC d.ethTimelock,
         SwapAction.createSuiHTLC d.suiTimelock,
         SwapAction.waitForSuiFinality,
         SwapAction.claimSuiHTLC,
         SwapAction.claimEthereumHTLC] ∧
      List.findIdx isCreateEthAction (performETHtoSUISwap d) = 0 ∧
      List.findIdx isCreateSuiAction (performETHtoSUISwap d) = 1 := by
  intro d
  refine ⟨rfl, ?_, ?_⟩ <;>
    simp [performETHtoSUISwap, List.findIdx, List.findIdx.go,
      isCreateEthAction, isCreateSuiAction]

/-- Counterexample to C2 as stated: on generator-produced details the Sui
(chain B) lock creation does not precede the Ethereum (chain A) lock
creation — the Ethereum creation is step 0 and the Sui creation step 1. -/
theorem c2_sui_lock_not_created_first :
    demoDetails.suiTimelock < demoDetails.ethTimelock ∧
    List.findIdx isCreateEthAction (performETHtoSUISwap demoDetails) = 0 ∧
    List.findIdx isCreateSuiAction (performETHtoSUISwap demoDetails) = 1 ∧
    ¬ List.findIdx isCreateSuiAction (performETHtoSUISwap demoDetails) <
        List.findIdx isCreateEthAction (performETHtoSUISwap demoDetails) := by
  decide

/-- C6: the EVM createHTLC rejects a timelock that is not strictly in the
future (shown at timelock 500 and at timelock equal to the current time
1000, creating nothing), but the Sui create_htlc performs no timelock
validation at all: called at clock time 1000 seconds with timelock 0 it
still constructs and shares the lock object, whose timelock is already at
or below its creation time. -/
theorem c6_sui_create_skips_timelock_validation :
    createHTLC EvmState.init 1000 5 7 1 9 11 500 0 0 =
      Except.error "Timelock must be in the future" ∧
    createHTLC EvmState.init 1000 5 7 1 9 11 1000 0 0 =
      Except.error "Timelock must be in the future" ∧
    create_htlc 1000000 [1] 9 [2] 0 5 3 =
      { htlc_id := [1], hashlock := [2], timelock := 0, sender := 3,
        receiver := 9, amount := 5, secret := [], withdrawn := false,
        refunded := false, created_at := 1000, coin := some 5 } ∧
    (create_htlc 1000000 [1] 9 [2] 0 5 3).timelock ≤
      (create_htlc 1000000 [1] 9 [2] 0 5 3).created_at := by
  exact ⟨rfl, rfl, rfl, by decide⟩

/-- C7: the hashlock committed by createHTLCWithOneInch in the 1inch
integration script is computed with keccak256, not SHA-256, while both lock
contracts verify claims with SHA-256 (and every other generation path uses
SHA-256), so that path's commitment disagrees with the verification
primitive. -/
theorem c7_one_inch_path_commits_keccak_not_sha256 :
    createHTLCWithOneInchHashAlgo = HashAlgo.keccak256 ∧
    createHTLCWithOneInchHashAlgo ≠ claimHTLCVerifyHashAlgo ∧
    createHTLCWithOneInchHashAlgo ≠ claimWithSecretVerifyHashAlgo ∧
    claimHTLCVerifyHashAlgo = HashAlgo.sha256 ∧
    claimWithSecretVerifyHashAlgo = HashAlgo.sha256 ∧
    generateSwapDetailsHashAlgo = HashAlgo.sha256 ∧
    generateCrossChainSwapDetailsHashAlgo = HashAlgo.sha256 ∧
    suiHtlcScriptHashAlgo = HashAlgo.sha256 ∧
    limitOrderScriptHashAlgo = HashAlgo.sha256 := by
  decide

/-- C3: on both contracts, with the caller being the receiver and the lock
open and unexpired, the claim succeeds exactly when the hash of the
submitted secret equals the stored hashlock; on a mismatch the call is
rejected with Invalid secret respectively E_INVALID_SECRET and the lock is
unchanged. -/
theorem c3_claim_succeeds_iff_hash_matches :
    (∀ (f : Nat → Nat) (s : EvmState) (now c id sec : Nat),
      c = (s.locks id).receiver → (s.locks id).withdrawn = false →
      (s.locks id).refunded = false → now < (s.locks id).timelock →
      ((∃ s', claimHTLC f s now c id sec = Except.ok s') ↔
        f sec = (s.locks id).hashlock) ∧
      (f sec ≠ (s.locks id).hashlock →
        claimHTLC f s now c id sec = Except.error "Invalid secret" ∧
        evmStep f s (EvmOp.claim now c id sec) = s)) ∧
    (∀ (g : List Nat → List Nat) (clockMs : Nat) (o : SuiHTLC) (sec : List Nat) (c : Nat),
      c = o.receiver → o.withdrawn = false → o.refunded = false →
      clockMs / 1000 < o.timelock →
      ((∃ o', claim_with_secret g clockMs o sec c = Except.ok o') ↔
        g sec = o.hashlock) ∧
      (g sec ≠ o.hashlock →
        claim_with_secret g clockMs o sec c = Except.error E_INVALID_SECRET ∧
        suiStep g o (SuiOp.claim clockMs sec c) = o)) := by
  constructor
  · intro f s now c id sec hc hw hr ht
    constructor
    · by_cases hh : f sec = (s.locks id).hashlock <;>
        simp [claimHTLC, hc, hw, hr, ht, hh]
    · intro hh
      have herr : claimHTLC f s now c id sec = Except.error "Invalid secret" := by
        simp [claimHTLC, hc, hw, hr, ht, hh]
      exact ⟨herr, evmStep_of_error (.claim now c id sec) herr⟩
  · intro g clockMs o sec c hc hw hr ht
    constructor
    · by_cases hh : g sec = o.hashlock <;>
        simp [claim_with_secret, hc, hw, hr, ht, hh]
    · intro hh
      have herr : claim_with_secret g clockMs o sec c = Except.error E_INVALID_SECRET := by
        simp [claim_with_secret, hc, hw, hr, ht, hh]
      exact ⟨herr, suiStep_of_error (.claim clockMs sec c) herr⟩

/-- Witness for C3: on the concrete open lock of w3Evm, the claim by the
receiver with a matching secret succeeds. -/
theorem c3_claim_succeeds_iff_hash_matches_witness :
    (3 : Nat) = ((w3Evm).locks 1).receiver ∧
    (∃ s', claimHTLC (fun n => n + 1) w3Evm 10 3 1 5 = Except.ok s') :=
  ⟨by decide,
    (c3_claim_succeeds_iff_hash_matches.1 (fun n => n + 1) w3Evm 10 3 1 5
      (by decide) (by decide) (by decide) (by decide)).1.mpr (by decide)⟩

/-- C4: on both contracts no lock ever has both flags set — starting from the
deployed EVM contract, every transaction sequence keeps every slot free of
the withdrawn-and-refunded combination, and likewise every operation
sequence on a created Sui object; a successful claim requires the lock not
refunded and a successful refund requires it not withdrawn; and each flag,
once set (on an EVM lock with a real, nonzero sender), survives every
further transaction. -/
theorem c4_claimed_and_refunded_mutually_exclusive :
    (∀ (f : Nat → Nat) (ops : List EvmOp) (id : Nat),
      ¬ (((evmRun f EvmState.init ops).locks id).withdrawn = true ∧
         ((evmRun f EvmState.init ops).locks id).refunded = true)) ∧
    (∀ (f : Nat → Nat) (s : EvmState) (now c id sec : Nat) (s' : EvmState),
      claimHTLC f s now c id sec = Except.ok s' → (s.locks id).refunded = false) ∧
    (∀ (s : EvmState) (now c id : Nat) (s' : EvmState),
      refundHTLC s now c id = Except.ok s' → (s.locks id).withdrawn = false) ∧
    (∀ (f : Nat → Nat) (s : EvmState) (op : EvmOp) (id : Nat),
      (s.locks id).sender ≠ 0 → (s.locks id).withdrawn = true →
      ((evmStep f s op).locks id).withdrawn = true) ∧
    (∀ (f : Nat → Nat) (s : EvmState) (op : EvmOp) (id : Nat),
      (s.locks id).sender ≠ 0 → (s.locks id).refunded = true →
      ((evmStep f s op).locks id).refunded = true) ∧
    (∀ (g : List Nat → List Nat) (clockMs : Nat) (hid : List Nat) (r : Nat)
        (hl : List Nat) (t v cs : Nat) (ops : List SuiOp),
      ¬ ((suiRun g (create_htlc clockMs hid r hl t v cs) ops).withdrawn = true ∧
         (suiRun g (create_htlc clockMs hid r hl t v cs) ops).refunded = true)) ∧
    (∀ (g : List Nat → List Nat) (o : SuiHTLC) (op : SuiOp),
      o.withdrawn = true → (suiStep g o op).withdrawn = true) ∧
    (∀ (g : List Nat → List Nat) (o : SuiHTLC) (op : SuiOp),
      o.refunded = true → (suiStep g o op).refunded = true) := by
  refine ⟨?_, ?_, ?_, ?_, ?_, ?_, ?_, ?_⟩
  · intro f ops id
    have hinit : EvmExcl EvmState.init := by
      intro j
      simp [EvmState.init, EvmLock.empty]
    exact evmRun_pres f EvmExcl (fun s op hs => evmStep_excl_pres f s op hs) ops
      EvmState.init hinit id
  · intro f s now c id sec s' hok
    rcases claimHTLC_cases f s now c id sec with ⟨e, he⟩ | ⟨_, _, hrf, _, _, _⟩
    · rw [he] at hok; exact absurd hok (by simp)
    · exact hrf
  · intro s now c id s' hok
    rcases refundHTLC_cases s now c id with ⟨e, he⟩ | ⟨_, hwf, _, _, _⟩
    · rw [he] at hok; exact absurd hok (by simp)
    · exact hwf
  · intro f s op id hs hw
    exact (evmStep_withdrawn_pres f s op id hs hw).2
  · intro f s op id hs hr
    exact (evmStep_refunded_pres f s op id hs hr).2
  · intro g clockMs hid r hl t v cs ops
    have hinit : ¬ ((create_htlc clockMs hid r hl t v cs).withdrawn = true ∧
        (create_htlc clockMs hid r hl t v cs).refunded = true) := by
      simp [create_htlc]
    exact suiRun_pres g
      (fun o => ¬ (o.withdrawn = true ∧ o.refunded = true))
      (fun o op hs => suiStep_excl_pres g o op hs) ops _ hinit
  · intro g o op hw
    exact suiStep_withdrawn_pres g o op hw
  · intro g o op hr
    exact suiStep_refunded_pres g o op hr

/-- Witness for C4: the withdrawn flag of the concrete object w4Sui survives
a refund attempt. -/
theorem c4_claimed_and_refunded_mutually_exclusive_witness :
    w4Sui.withdrawn = true ∧
    (suiStep (fun l => l) w4Sui (SuiOp.refund 0 2)).withdrawn = true :=
  ⟨rfl,
    c4_claimed_and_refunded_mutually_exclusive.2.2.2.2.2.2.1
      (fun l => l) w4Sui (SuiOp.refund 0 2) rfl⟩

/-- C5: after one successful claim of a lock (with its real, nonzero sender
on the EVM side), and after any further sequence of transactions, every
claim attempt and every refund attempt on that lock fails — by the lock's
receiver respectively sender with exactly the Already withdrawn error
(E_ALREADY_WITHDRAWN on Sui) — and the failing attempt leaves the state
unchanged. -/
theorem c5_at_most_once_claim :
    (∀ (f : Nat → Nat) (s : EvmState) (now c id sec : Nat) (s' : EvmState)
        (ops : List EvmOp),
      (s.locks id).sender ≠ 0 →
      claimHTLC f s now c id sec = Except.ok s' →
      ∀ (now2 c2 sec2 : Nat),
        (∃ e, claimHTLC f (evmRun f s' ops) now2 c2 id sec2 = Except.error e) ∧
        (∃ e, refundHTLC (evmRun f s' ops) now2 c2 id = Except.error e) ∧
        (c2 = ((evmRun f s' ops).locks id).receiver →
          claimHTLC f (evmRun f s' ops) now2 c2 id sec2 =
            Except.error "Already withdrawn") ∧
        (c2 = ((evmRun f s' ops).locks id).sender →
          refundHTLC (evmRun f s' ops) now2 c2 id =
            Except.error "Already withdrawn") ∧
        evmStep f (evmRun f s' ops) (EvmOp.claim now2 c2 id sec2) = evmRun f s' ops ∧
        evmStep f (evmRun f s' ops) (EvmOp.refund now2 c2 id) = evmRun f s' ops) ∧
    (∀ (g : List Nat → List Nat) (clockMs : Nat) (o : SuiHTLC) (sec : List Nat)
        (c : Nat) (o' : SuiHTLC) (ops : List SuiOp),
      claim_with_secret g clockMs o sec c = Except.ok o' →
      ∀ (clock2 : Nat) (sec2 : List Nat) (c2 : Nat),
        (∃ e, claim_with_secret g clock2 (suiRun g o' ops) sec2 c2 = Except.error e) ∧
        (∃ e, refund_htlc clock2 (suiRun g o' ops) c2 = Except.error e) ∧
        (c2 = (suiRun g o' ops).receiver →
          claim_with_secret g clock2 (suiRun g o' ops) sec2 c2 =
            Except.error E_ALREADY_WITHDRAWN) ∧
        (c2 = (suiRun g o' ops).sender →
          refund_htlc clock2 (suiRun g o' ops) c2 =
            Except.error E_ALREADY_WITHDRAWN) ∧
        suiStep g (suiRun g o' ops) (SuiOp.claim clock2 sec2 c2) = suiRun g o' ops ∧
        suiStep g (suiRun g o' ops) (SuiOp.refund clock2 c2) = suiRun g o' ops) := by
  constructor
  · intro f s now c id sec s' ops hsender hclaim now2 c2 sec2
    rcases claimHTLC_cases f s now c id sec with ⟨e, he⟩ | ⟨_, _, _, _, _, hok⟩
    · rw [he] at hclaim; exact absurd hclaim (by simp)
    have hs' : s' = s.setLock id { s.locks id with secret := sec, withdrawn := true } := by
      rw [hclaim] at hok
      exact Except.ok.inj hok
    have hstart : (s'.locks id).sender ≠ 0 ∧ (s'.locks id).withdrawn = true := by
      subst hs'
      simpa [EvmState.locks_setLock] using hsender
    have hrun : ((evmRun f s' ops).locks id).sender ≠ 0 ∧
        ((evmRun f s' ops).locks id).withdrawn = true :=
      evmRun_pres f
        (fun t => (t.locks id).sender ≠ 0 ∧ (t.locks id).withdrawn = true)
        (fun t op ht => evmStep_withdrawn_pres f t op id ht.1 ht.2)
        ops s' hstart
    have hclaimFail : ∃ e, claimHTLC f (evmRun f s' ops) now2 c2 id sec2 =
        Except.error e := by
      by_cases hc2 : c2 = ((evmRun f s' ops).locks id).receiver
      · exact ⟨"Already withdrawn", by simp [claimHTLC, hc2, hrun.2]⟩
      · exact ⟨"Not the receiver", by simp [claimHTLC, hc2]⟩
    have hrefundFail : ∃ e, refundHTLC (evmRun f s' ops) now2 c2 id =
        Except.error e := by
      by_cases hc2 : c2 = ((evmRun f s' ops).locks id).sender
      · exact ⟨"Already withdrawn", by simp [refundHTLC, hc2, hrun.2]⟩
      · exact ⟨"Not the sender", by simp [refundHTLC, hc2]⟩
    obtain ⟨e1, he1⟩ := hclaimFail
    obtain ⟨e2, he2⟩ := hrefundFail
    refine ⟨⟨e1, he1⟩, ⟨e2, he2⟩, ?_, ?_, ?_, ?_⟩
    · intro hc2
      simp [claimHTLC, hc2, hrun.2]
    · intro hc2
      simp [refundHTLC, hc2, hrun.2]
    · exact evmStep_of_error (.claim now2 c2 id sec2) he1
    · exact evmStep_of_error (.refund now2 c2 id) he2
  · intro g clockMs o sec c o' ops hclaim clock2 sec2 c2
    rcases claim_with_secret_cases g clockMs o sec c with ⟨e, he⟩ | ⟨_, _, _, _, _, hok⟩
    · rw [he] at hclaim; exact absurd hclaim (by simp)
    have ho' : o' = { o with secret := sec, withdrawn := true, coin := none } := by
      rw [hclaim] at hok
      exact Except.ok.inj hok
    have hstart : o'.withdrawn = true := by
      subst ho'; rfl
    have hrun : (suiRun g o' ops).withdrawn = true :=
      suiRun_pres g (fun t => t.withdrawn = true)
        (fun t op ht => suiStep_withdrawn_pres g t op ht) ops o' hstart
    have hclaimFail : ∃ e, claim_with_secret g clock2 (suiRun g o' ops) sec2 c2 =
        Except.error e := by
      by_cases hc2 : (suiRun g o' ops).receiver = c2
      · exact ⟨E_ALREADY_WITHDRAWN, by simp [claim_with_secret, hc2, hrun]⟩
      · exact ⟨E_UNAUTHORIZED, by simp [claim_with_secret, hc2]⟩
    have hrefundFail : ∃ e, refund_htlc clock2 (suiRun g o' ops) c2 =
        Except.error e := by
      by_cases hc2 : (suiRun g o' ops).sender = c2
      · exact ⟨E_ALREADY_WITHDRAWN, by simp [refund_htlc, hc2, hrun]⟩
      · exact ⟨E_UNAUTHORIZED, by simp [refund_htlc, hc2]⟩
    obtain ⟨e1, he1⟩ := hclaimFail
    obtain ⟨e2, he2⟩ := hrefundFail
    refine ⟨⟨e1, he1⟩, ⟨e2, he2⟩, ?_, ?_, ?_, ?_⟩
    · intro hc2
      simp [claim_with_secret, hc2.symm, hrun]
    · intro hc2
      simp [refund_htlc, hc2.symm, hrun]
    · exact suiStep_of_error (.claim clock2 sec2 c2) he1
    · exact suiStep_of_error (.refund clock2 c2) he2

/-- Witness for C5: on the concrete lock of w5Evm, after the successful
claim reaching w5Claimed, a second claim by the receiver fails with the
Already withdrawn error. -/
theorem c5_at_most_once_claim_witness :
    (w5Evm.locks 1).sender ≠ 0 ∧
    claimHTLC (fun n => n + 1) (evmRun (fun n => n + 1) w5Claimed []) 20 3 1 9 =
      Except.error "Already withdrawn" :=
  ⟨by decide,
    (c5_at_most_once_claim.1 (fun n => n + 1) w5Evm 10 3 1 5 w5Claimed []
      (by decide) rfl 20 3 9).2.2.1 (by decide)⟩

/-- C8: on both contracts, while the current time is strictly before the
lock's timelock every refund attempt fails, the attempt by the lock's
sender on an open lock failing with exactly the Timelock-not-expired error;
and a refund succeeds only when the current time is at or past the timelock
and the caller is the sender. Each contract evaluates this on its own lock
only, so the gating is per leg. -/
theorem c8_refund_gated_by_timelock :
    (∀ (s : EvmState) (now c id : Nat),
      now < (s.locks id).timelock →
      ∃ e, refundHTLC s now c id = Except.error e) ∧
    (∀ (s : EvmState) (now c id : Nat),
      c = (s.locks id).sender → (s.locks id).withdrawn = false →
      (s.locks id).refunded = false → now < (s.locks id).timelock →
      refundHTLC s now c id = Except.error "Timelock not expired") ∧
    (∀ (s : EvmState) (now c id : Nat) (s' : EvmState),
      refundHTLC s now c id = Except.ok s' →
      (s.locks id).timelock ≤ now ∧ c = (s.locks id).sender) ∧
    (∀ (clockMs : Nat) (o : SuiHTLC) (c : Nat),
      clockMs / 1000 < o.timelock →
      ∃ e, refund_htlc clockMs o c = Except.error e) ∧
    (∀ (clockMs : Nat) (o : SuiHTLC) (c : Nat),
      c = o.sender → o.withdrawn = false → o.refunded = false →
      clockMs / 1000 < o.timelock →
      refund_htlc clockMs o c = Except.error E_TIMELOCK_NOT_EXPIRED) ∧
    (∀ (clockMs : Nat) (o : SuiHTLC) (c : Nat) (o' : SuiHTLC),
      refund_htlc clockMs o c = Except.ok o' →
      o.timelock ≤ clockMs / 1000 ∧ c = o.sender) := by
  refine ⟨?_, ?_, ?_, ?_, ?_, ?_⟩
  · intro s now c id h
    rcases refundHTLC_cases s now c id with ⟨e, he⟩ | ⟨_, _, _, hle, _⟩
    · exact ⟨e, he⟩
    · omega
  · intro s now c id hc hw hr ht
    simp [refundHTLC, hc, hw, hr, ht]
  · intro s now c id s' hok
    rcases refundHTLC_cases s now c id with ⟨e, he⟩ | ⟨hc, _, _, hle, _⟩
    · rw [he] at hok; exact absurd hok (by simp)
    · exact ⟨hle, hc⟩
  · intro clockMs o c h
    rcases refund_htlc_cases clockMs o c with ⟨e, he⟩ | ⟨_, _, _, hle, _⟩
    · exact ⟨e, he⟩
    · omega
  · intro clockMs o c hc hw hr ht
    simp [refund_htlc, hc.symm, hw, hr, ht]
  · intro clockMs o c o' hok
    rcases refund_htlc_cases clockMs o c with ⟨e, he⟩ | ⟨hc, _, _, hle, _⟩
    · rw [he] at hok; exact absurd hok (by simp)
    · exact ⟨hle, hc.symm⟩

/-- Witness for C8: on the concrete open lock of w8Evm (timelock 100), the
refund attempt by the sender at time 10 fails with Timelock not expired. -/
theorem c8_refund_gated_by_timelock_witness :
    (10 : Nat) < ((w8Evm).locks 1).timelock ∧
    refundHTLC w8Evm 10 2 1 = Except.error "Timelock not expired" :=
  ⟨by decide,
    c8_refund_gated_by_timelock.2.1 w8Evm 10 2 1
      (by decide) (by decide) (by decide) (by decide)⟩

/-- C9: in the ERC20 branch of the EVM createHTLC (nonzero token address,
with the other creation guards satisfied), a zero allowance makes the call
revert with the allowance error, and on success the amount recorded in the
lock is exactly the allowance argument, whatever msg.value was. -/
theorem c9_erc20_lock_amount_is_full_allowance :
    ∀ (s : EvmState) (now ms mv id r hl t tk al : Nat),
      tk ≠ 0 → now < t → r ≠ 0 → (s.locks id).sender = 0 →
      ((al = 0 →
        createHTLC s now ms mv id r hl t tk al =
          Except.error "Token allowance must be greater than 0") ∧
       (∀ s', createHTLC s now ms mv id r hl t tk al = Except.ok s' →
          (s'.locks id).amount = al ∧ (s'.locks id).sender = ms ∧
          (s'.locks id).token = tk)) := by
  intro s now ms mv id r hl t tk al htk ht hr hz
  constructor
  · intro hal
    simp [createHTLC, ht, hr, hz, htk, hal]
  · intro s' hok
    rcases createHTLC_cases s now ms mv id r hl t tk al with ⟨e, he⟩ | ⟨_, hok2⟩
    · rw [he] at hok; exact absurd hok (by simp)
    · have hs' : s' = s.setLock id
          { htlc_id := id, hashlock := hl, timelock := t, sender := ms,
            receiver := r, amount := if tk = 0 then mv else al, secret := 0,
            withdrawn := false, refunded := false, created_at := now,
            token := tk } := by
        rw [hok] at hok2
        exact Except.ok.inj hok2
      subst hs'
      simp [EvmState.locks_setLock, htk]

/-- Witness for C9: creating a token lock (token address 4) with allowance 9
on the fresh contract records amount 9. -/
theorem c9_erc20_lock_amount_is_full_allowance_witness :
    (4 : Nat) ≠ 0 ∧
    ((EvmState.init.setLock 1
      { htlc_id := 1, hashlock := 11, timelock := 500, sender := 5,
        receiver := 9, amount := 9, secret := 0, withdrawn := false,
        refunded := false, created_at := 100, token := 4 }).locks 1).amount = 9 :=
  ⟨by decide,
    ((c9_erc20_lock_amount_is_full_allowance EvmState.init 100 5 7 1 9 11 500 4 9
        (by decide) (by decide) (by decide) (by decide)).2
      (EvmState.init.setLock 1
        { htlc_id := 1, hashlock := 11, timelock := 500, sender := 5,
          receiver := 9, amount := 9, secret := 0, withdrawn := false,
          refunded := false, created_at := 100, token := 4 }) rfl).1⟩

/-- C10: when a slot already holds a lock (nonzero stored sender), a second
createHTLC on that htlc_id reverts — with the HTLC-already-exists error once
the two preceding argument guards pass — so no argument combination can
overwrite an existing lock, and the transaction is a storage no-op. -/
theorem c10_create_cannot_overwrite_existing_lock :
    ∀ (s : EvmState) (now ms mv id r hl t tk al : Nat),
      (s.locks id).sender ≠ 0 →
      ((now < t → r ≠ 0 →
        createHTLC s now ms mv id r hl t tk al =
          Except.error "HTLC already exists") ∧
       (∃ e, createHTLC s now ms mv id r hl t tk al = Except.error e) ∧
       (∀ f : Nat → Nat,
          evmStep f s (EvmOp.create now ms mv id r hl t tk al) = s)) := by
  intro s now ms mv id r hl t tk al hs
  have hfail : ∃ e, createHTLC s now ms mv id r hl t tk al = Except.error e := by
    rcases createHTLC_cases s now ms mv id r hl t tk al with ⟨e, he⟩ | ⟨hz, _⟩
    · exact ⟨e, he⟩
    · exact absurd hz hs
  obtain ⟨e, he⟩ := hfail
  refine ⟨?_, ⟨e, he⟩, ?_⟩
  · intro ht hr
    simp [createHTLC, ht, hr, hs]
  · intro f
    exact evmStep_of_error (.create now ms mv id r hl t tk al) he

/-- Witness for C10: a second creation on the occupied slot 1 of w3Evm
reverts with HTLC already exists. -/
theorem c10_create_cannot_overwrite_existing_lock_witness :
    ((w3Evm).locks 1).sender ≠ 0 ∧
    createHTLC w3Evm 10 4 7 1 9 11 500 0 0 =
      Except.error "HTLC already exists" :=
  ⟨by decide,
    (c10_create_cannot_overwrite_existing_lock w3Evm 10 4 7 1 9 11 500 0 0
      (by decide)).1 (by decide) (by decide)⟩

end MoveSwap
